import Mathlib

/-!
Verification of the RTP audio streaming tool
(`examples/audioBle/tools/stream_audio.py`).

The Python source is shallowly embedded below: bytes are naturals in
`[0, 255]`, byte buffers are `List Nat`, machine-range checks that
`struct.pack` performs at run time are made explicit with `Option`,
and the mutable `RtpServer` object becomes an explicit state record
threaded through the functions that mutate it.  Socket I/O is modelled
by its observable effect: the list of datagrams handed to `sendto`,
plus an oracle saying whether each `sendto` call raises.
-/

namespace StreamAudio

/-- Constant `RtpServer.PAYLOAD_TYPE_L16 = 11` (linear PCM 16-bit). -/
def PAYLOAD_TYPE_L16 : Nat := 11

/-- Big-endian byte string of width `w` for the value `n`, as produced by
`struct.pack` for the formats `B` (w = 1), `H` (w = 2) and `I` (w = 4)
once the range check has passed. -/
def beBytes : Nat → Nat → List Nat
  | 0, _ => []
  | w + 1, n => beBytes w (n / 256) ++ [n % 256]

/-- Model of `struct.pack('!BBHII', b0, b1, h, i1, i2)`: two single bytes, one
big-endian 16-bit field, two big-endian 32-bit fields.  `struct.pack`
raises `struct.error` when an argument is out of range for its format;
that failure is the `none` case. -/
def structPackBBHII (b0 b1 h i1 i2 : Nat) : Option (List Nat) :=
  if b0 < 256 ∧ b1 < 256 ∧ h < 65536 ∧ i1 < 4294967296 ∧ i2 < 4294967296 then
    some ([b0, b1] ++ beBytes 2 h ++ beBytes 4 i1 ++ beBytes 4 i2)
  else
    none

/-- Method `RtpServer.create_rtp_header` (lines 115-135): byte 0 is the fixed
`0x80` (version 2, no padding, no extension, no CSRC), byte 1 combines the
marker bit with the fixed payload type 11, then the sequence number,
timestamp and SSRC are packed big-endian.  The method reads
`self.sequence_number`, `self.timestamp` and `self.ssrc`; they are explicit
arguments here. -/
def create_rtp_header (marker : Bool) (sequence_number timestamp ssrc : Nat) :
    Option (List Nat) :=
  let vpxcc : Nat := 0x80
  let mpt : Nat := (if marker then 0x80 else 0x00) ||| PAYLOAD_TYPE_L16
  structPackBBHII vpxcc mpt sequence_number timestamp ssrc

/-- Modelled from the spec: the repository has no `decodeHeader`; §8 of the
design states `decodeHeader(encodeHeader(...))` recovers the exact inputs,
so the decoder is the inverse reading of the §4.1 byte layout: byte 0 must
be `0x80`; the marker is bit 7 of byte 1; bytes 2-3, 4-7 and 8-11 are the
big-endian sequence number, timestamp and SSRC. -/
def decodeHeader (bs : List Nat) : Option (Bool × Nat × Nat × Nat) :=
  match bs with
  | [b0, b1, s1, s0, t3, t2, t1, t0, c3, c2, c1, c0] =>
    if b0 = 0x80 then
      some (decide (128 ≤ b1),
            s1 * 256 + s0,
            ((t3 * 256 + t2) * 256 + t1) * 256 + t0,
            ((c3 * 256 + c2) * 256 + c1) * 256 + c0)
    else
      none
  | _ => none

/-- Line 148: `self.sequence_number = (self.sequence_number + 1) & 0xFFFF`. -/
def advance_sequence_number (s : Nat) : Nat := (s + 1) &&& 0xFFFF

/-- Line 213: `self.timestamp += timestamp_increment`.  Python integers are
unbounded, so this is plain addition with no wraparound. -/
def advance_timestamp (timestamp_increment t : Nat) : Nat := t + timestamp_increment

/-- Line 186: `samples_per_chunk = int((self.sample_rate * chunk_duration_ms) / 1000)`.
The product of the two ints is exact; for every magnitude the program can
meet (products far below `2^52`) the float division followed by `int()`
truncation coincides with natural floor division, which is how it is
embedded here. -/
def samples_per_chunk (sample_rate chunk_duration_ms : Nat) : Nat :=
  sample_rate * chunk_duration_ms / 1000

/-- Lines 185-187: `bytes_per_sample = audio.sample_width * audio.channels;
chunk_size = samples_per_chunk * bytes_per_sample`. -/
def chunk_size (sample_width channels sample_rate chunk_duration_ms : Nat) : Nat :=
  samples_per_chunk sample_rate chunk_duration_ms * (sample_width * channels)

/-- The spec formula for comparison (§4.2): `samplesPerFrame =
round(sampleRate * frameDurationMs / 1000)`, with Python `round`, i.e.
round half to even on the exact rational quotient. -/
def samplesPerFrameSpec (sample_rate chunk_duration_ms : Nat) : Nat :=
  let n := sample_rate * chunk_duration_ms
  let q := n / 1000
  let r := n % 1000
  if r < 500 then q
  else if 500 < r then q + 1
  else if q % 2 = 0 then q else q + 1

/-- A peer UDP address, `(host, port)` as returned by `recvfrom`; the host
string is abstracted to a numeric identifier. -/
abbrev Addr := Nat × Nat

/-- The mutable fields of an `RtpServer` object (lines 41-55). -/
structure RtpState where
  port : Nat
  sample_rate : Nat
  sequence_number : Nat
  timestamp : Nat
  ssrc : Nat
  client_addr : Option Addr
deriving DecidableEq

/-- Constructor `RtpServer.__init__(port, sample_rate)` (lines 41-55): sequence number
and timestamp start at 0, the SSRC is the fixed `0x12345678`, and no client
address is known yet. -/
def initServer (port sample_rate : Nat) : RtpState :=
  ⟨port, sample_rate, 0, 0, 0x12345678, none⟩

/-- The Python exceptions the embedded code can raise: `struct.error` from
`create_rtp_header`, an `OSError` from `socket.sendto`, and the
`ValueError` that `range(0, L, 0)` raises on a zero step. -/
inductive PyError where
  | structError
  | sendError
  | valueError
deriving DecidableEq

/-- Outcome of one `send_rtp_packet` call: the state of the server object
afterwards, the datagrams handed to `sendto`, and the exception that
escaped, if any.  (When an exception escapes, the object keeps the state it
had at the raise point.) -/
structure SendResult where
  state : RtpState
  sent : List (List Nat)
  error : Option PyError
deriving DecidableEq

/-- Method `RtpServer.send_rtp_packet(audio_data, marker)` (lines 137-148).
With no client address it returns at once.  Otherwise it builds the header
(`struct.error` propagates if a field is out of range), concatenates
header and payload, calls `sendto` — `sendOk` says whether that call
returns — and only then advances the sequence number, so a raising
`sendto` leaves the sequence number untouched. -/
def send_rtp_packet (st : RtpState) (audio_data : List Nat) (marker : Bool)
    (sendOk : Bool) : SendResult :=
  match st.client_addr with
  | none => ⟨st, [], none⟩
  | some _ =>
    match create_rtp_header marker st.sequence_number st.timestamp st.ssrc with
    | none => ⟨st, [], some .structError⟩
    | some header =>
      if sendOk then
        ⟨{ st with sequence_number := advance_sequence_number st.sequence_number },
         [header ++ audio_data], none⟩
      else
        ⟨st, [], some .sendError⟩

/-- Method `RtpServer.wait_for_client` (lines 80-100): blocks up to 60 seconds for
any inbound datagram.  `inbound` is the sender address of the datagram that
arrived within the window, or `none` on timeout.  On receipt the sender
becomes the session peer and the call returns `True`; on timeout the state
is unchanged and the call returns `False`. -/
def wait_for_client (st : RtpState) (inbound : Option Addr) : Bool × RtpState :=
  match inbound with
  | some addr => (true, { st with client_addr := some addr })
  | none => (false, st)

/-- Padding of the last chunk (lines 204-206): `if len(chunk) < chunk_size:
chunk += b'\x00' * (chunk_size - len(chunk))`. -/
def padChunk (F : Nat) (chunk : List Nat) : List Nat :=
  if chunk.length < F then chunk ++ List.replicate (F - chunk.length) 0 else chunk

/-- The packetizer view of the loop `for i in range(0, len(raw_data), chunk_size)`
(lines 201-209): each iteration slices `raw_data[i:i+chunk_size]`, pads a
short final slice, and flags the `i == 0` slice as the marker frame.  The
iteration over `i` is rendered by keeping the not-yet-consumed suffix of
the buffer alongside the current `i`; with a positive step the loop runs
while `i < len(raw_data)`, i.e. while that suffix is non-empty, and `fuel`
(instantiated with `len(raw_data)`, an upper bound on the iteration count
for any step ≥ 1) makes the recursion structural. -/
def framesLoop (F : Nat) : Nat → Nat → List Nat → List (Bool × List Nat)
  | 0, _, _ => []
  | _ + 1, _, [] => []
  | fuel + 1, i, d :: ds =>
    (decide (i = 0), padChunk F ((d :: ds).take F)) ::
      framesLoop F fuel (i + F) ((d :: ds).drop F)

/-- The sequence of `(marker, payload)` frames the streaming loop derives
from a raw PCM buffer, for a chunk size `F`. -/
def stream_frames (F : Nat) (raw_data : List Nat) : List (Bool × List Nat) :=
  framesLoop F raw_data.length 0 raw_data

/-- Outcome of the streaming loop: final server state, datagrams handed to
`sendto` in order, final `packet_count`, and the exception that ended the
loop early, if any. -/
structure StreamResult where
  state : RtpState
  sent : List (List Nat)
  packet_count : Nat
  error : Option PyError
deriving DecidableEq

/-- The stateful streaming loop (lines 200-213): per iteration, slice and
pad the chunk, send it with the marker set on the `i == 0` chunk, then
increment `packet_count` and the timestamp.  `sendOks k` says whether the
`sendto` inside the `k`-th `send_rtp_packet` call returns; an exception
ends the loop at once, before that iteration's `packet_count` and
timestamp updates.  `fuel`, `i` and the remaining buffer render
`for i in range(0, len(raw_data), chunk_size)` as in `framesLoop`. -/
def streamLoop (F timestamp_increment : Nat) (sendOks : Nat → Bool) :
    Nat → Nat → Nat → RtpState → List Nat → StreamResult
  | 0, _, count, st, _ => ⟨st, [], count, none⟩
  | _ + 1, _, count, st, [] => ⟨st, [], count, none⟩
  | fuel + 1, i, count, st, d :: ds =>
    let chunk := padChunk F ((d :: ds).take F)
    let r := send_rtp_packet st chunk (decide (i = 0)) (sendOks count)
    match r.error with
    | some e => ⟨r.state, r.sent, count, some e⟩
    | none =>
      let st' := { r.state with timestamp := advance_timestamp timestamp_increment r.state.timestamp }
      let rest := streamLoop F timestamp_increment sendOks fuel (i + F) (count + 1) st' ((d :: ds).drop F)
      ⟨rest.state, r.sent ++ rest.sent, rest.packet_count, rest.error⟩

/-- Method `RtpServer.stream_audio(audio_file, chunk_duration_ms)` (lines 150-234),
after the decode/convert steps that are outside the core: `raw_data` is the
converted PCM byte buffer (mono, 16-bit, so `bytes_per_sample = 2 * 1`).
If `wait_for_client` fails the method returns before any packet is sent;
otherwise it computes the chunk size and timestamp increment and runs the
streaming loop.  A zero chunk size would make `range` raise `ValueError`. -/
def stream_audio (st : RtpState) (inbound : Option Addr) (raw_data : List Nat)
    (chunk_duration_ms : Nat) (sendOks : Nat → Bool) : StreamResult :=
  match wait_for_client st inbound with
  | (false, st') => ⟨st', [], 0, none⟩
  | (true, st') =>
    let F := chunk_size 2 1 st'.sample_rate chunk_duration_ms
    let timestamp_increment := samples_per_chunk st'.sample_rate chunk_duration_ms
    if F = 0 then ⟨st', [], 0, some .valueError⟩
    else streamLoop F timestamp_increment sendOks raw_data.length 0 0 st' raw_data

/-! ### Helper lemmas -/

theorem beBytes_two (n : Nat) : beBytes 2 n = [n / 256 % 256, n % 256] := rfl

theorem beBytes_four (n : Nat) :
    beBytes 4 n = [n / 256 / 256 / 256 % 256, n / 256 / 256 % 256, n / 256 % 256, n % 256] := rfl

/-- Fully evaluated form of `create_rtp_header` on in-range fields. -/
theorem create_rtp_header_bytes (m : Bool) (s t c : Nat)
    (hs : s < 65536) (ht : t < 4294967296) (hc : c < 4294967296) :
    create_rtp_header m s t c =
      some [0x80, if m then 0x8B else 0x0B,
            s / 256, s % 256,
            t / 16777216, t / 65536 % 256, t / 256 % 256, t % 256,
            c / 16777216, c / 65536 % 256, c / 256 % 256, c % 256] := by
  have hb1 : ((if m then 0x80 else 0x00 : Nat) ||| PAYLOAD_TYPE_L16)
      = if m then 0x8B else 0x0B := by cases m <;> decide
  have hb1lt : ((if m then 0x80 else 0x00 : Nat) ||| PAYLOAD_TYPE_L16) < 256 := by
    cases m <;> decide
  simp only [create_rtp_header, structPackBBHII, beBytes_two, beBytes_four]
  rw [if_pos ⟨by norm_num, hb1lt, hs, ht, hc⟩, hb1]
  simp only [List.cons_append, List.nil_append, Option.some.injEq, List.cons.injEq, and_true,
    true_and]
  omega

/-- Lemma: `advance_sequence_number` is addition modulo `2^16`. -/
theorem advance_sequence_number_mod (s : Nat) :
    advance_sequence_number s = (s + 1) % 65536 := by
  have h : (0xFFFF : Nat) = 2 ^ 16 - 1 := by norm_num
  unfold advance_sequence_number
  rw [h, Nat.and_pow_two_sub_one_eq_mod]

theorem advance_sequence_number_iterate (n : Nat) :
    advance_sequence_number^[n] 0 = n % 65536 := by
  induction n with
  | zero => rfl
  | succ n ih =>
    rw [Function.iterate_succ_apply', ih, advance_sequence_number_mod]
    omega

theorem advance_timestamp_iterate (inc n : Nat) :
    (advance_timestamp inc)^[n] 0 = inc * n := by
  induction n with
  | zero => rfl
  | succ n ih =>
    rw [Function.iterate_succ_apply', ih]
    unfold advance_timestamp
    ring

/-! ### Claims about the header codec and the counters -/

/-- Claim C1: for every marker flag, 16-bit sequence number, 32-bit
timestamp and 32-bit SSRC, the encoded RTP header is byte0 = `0x80`,
byte1 = (marker ? `0x80` : 0) | (payloadType & `0x7F`) with the payload
type fixed at 11, then the sequence number, timestamp and SSRC big-endian;
in particular `create_rtp_header` on (marker, `0xFFFF`, 0, `0x12345678`)
yields exactly the 12 bytes `80 8B FF FF 00 00 00 00 12 34 56 78`. -/
theorem C1_header_layout (marker : Bool) (s t c : Nat)
    (hs : s < 65536) (ht : t < 4294967296) (hc : c < 4294967296) :
    create_rtp_header marker s t c =
      some [0x80, (if marker then 0x80 else 0x00) ||| (PAYLOAD_TYPE_L16 &&& 0x7F),
            s / 256, s % 256,
            t / 16777216, t / 65536 % 256, t / 256 % 256, t % 256,
            c / 16777216, c / 65536 % 256, c / 256 % 256, c % 256]
    ∧ create_rtp_header true 0xFFFF 0 0x12345678 =
        some [0x80, 0x8B, 0xFF, 0xFF, 0x00, 0x00, 0x00, 0x00, 0x12, 0x34, 0x56, 0x78] := by
  refine ⟨?_, by decide⟩
  have hb1 : ((if marker then 0x80 else 0x00 : Nat) ||| (PAYLOAD_TYPE_L16 &&& 0x7F))
      = if marker then 0x8B else 0x0B := by cases marker <;> decide
  rw [create_rtp_header_bytes marker s t c hs ht hc, hb1]

theorem C1_witness :
    (0xFFFF : Nat) < 65536 ∧
    create_rtp_header true 0xFFFF 0 0x12345678 =
      some [0x80, 0x8B, 0xFF, 0xFF, 0x00, 0x00, 0x00, 0x00, 0x12, 0x34, 0x56, 0x78] :=
  ⟨by decide,
   (C1_header_layout true 0xFFFF 0 0x12345678 (by decide) (by decide) (by decide)).2⟩

/-- Claim C9: for all valid inputs (marker, 16-bit sequence number, 32-bit
timestamp, 32-bit SSRC), decoding the encoded header recovers exactly those
inputs, and the encoded buffer is exactly 12 bytes with byte 0 = `0x80`.
(`decodeHeader` is modelled from the spec; the repository has no decoder.) -/
theorem C9_header_round_trip (marker : Bool) (s t c : Nat)
    (hs : s < 65536) (ht : t < 4294967296) (hc : c < 4294967296) :
    ∃ bs, create_rtp_header marker s t c = some bs
      ∧ bs.length = 12
      ∧ bs[0]? = some 0x80
      ∧ decodeHeader bs = some (marker, s, t, c) := by
  refine ⟨_, create_rtp_header_bytes marker s t c hs ht hc, rfl, rfl, ?_⟩
  cases marker <;>
  · simp only [decodeHeader, if_true, if_false]
    norm_num
    omega

theorem C9_witness :
    ∃ bs, create_rtp_header false 7 9 11 = some bs
      ∧ bs.length = 12
      ∧ bs[0]? = some 0x80
      ∧ decodeHeader bs = some (false, 7, 9, 11) :=
  C9_header_round_trip false 7 9 11 (by decide) (by decide) (by decide)

/-- Claim C3: the sequence number advance maps `s` to `(s + 1) % 65536`;
starting from 0, after exactly 65536 advances the sequence number is 0
again, and after every number of advances it lies in `[0, 65535]`. -/
theorem C3_sequence_wraparound :
    (∀ s, advance_sequence_number s = (s + 1) % 65536)
    ∧ advance_sequence_number^[65536] 0 = 0
    ∧ ∀ n, advance_sequence_number^[n] 0 ≤ 65535 := by
  refine ⟨advance_sequence_number_mod, ?_, ?_⟩
  · rw [advance_sequence_number_iterate]
  · intro n
    rw [advance_sequence_number_iterate]
    omega

/-- Claim C6, counterexample: the timestamp advance of the code is not
addition modulo `2^32`.  With `samplesPerFrame = 960` (the 48 kHz / 20 ms
configuration), the state reached after 4473925 advances from 0 holds
timestamp 4294968000, which exceeds `2^32 - 1` and differs from the
mod-`2^32` value 704; header encoding fails (`struct.error`) on it. -/
theorem C6_counterexample :
    (advance_timestamp 960)^[4473924] 0 = 4294967040
    ∧ advance_timestamp 960 4294967040 ≠ (4294967040 + 960) % 2 ^ 32
    ∧ (advance_timestamp 960)^[4473925] 0 = 4294968000
    ∧ 2 ^ 32 - 1 < (advance_timestamp 960)^[4473925] 0
    ∧ create_rtp_header false 0 4294968000 0x12345678 = none := by
  have h := advance_timestamp_iterate 960 4473925
  have h' := advance_timestamp_iterate 960 4473924
  refine ⟨by rw [h'], by unfold advance_timestamp; norm_num, by rw [h],
    by rw [h]; norm_num, by decide⟩

/-- Claim C6 (amended): the timestamp advance of the code is plain
unbounded addition `t + samplesPerFrame` with no reduction mod `2^32`
(so the value reached after `n` advances from 0 is `samplesPerFrame * n`),
and header encoding fails (`struct.error` from `struct.pack`) precisely
when the timestamp is out of the 32-bit range, i.e. when `2^32 ≤ t`. -/
theorem C6_timestamp_unbounded (inc t : Nat) (m : Bool) (s c : Nat)
    (hs : s < 65536) (hc : c < 4294967296) :
    advance_timestamp inc t = t + inc
    ∧ (∀ n, (advance_timestamp inc)^[n] 0 = inc * n)
    ∧ (create_rtp_header m s t c = none ↔ 4294967296 ≤ t) := by
  have hb1lt : ((if m then 0x80 else 0x00 : Nat) ||| PAYLOAD_TYPE_L16) < 256 := by
    cases m <;> decide
  refine ⟨rfl, advance_timestamp_iterate inc, ?_⟩
  simp only [create_rtp_header, structPackBBHII]
  constructor
  · intro h
    by_contra hlt
    push_neg at hlt
    rw [if_pos ⟨by norm_num, hb1lt, hs, hlt, hc⟩] at h
    simp at h
  · intro h
    rw [if_neg]
    intro hcond
    omega

theorem C6_witness :
    0 < 65536 ∧ (305419896 : Nat) < 4294967296 ∧
    (advance_timestamp 960 0 = 0 + 960
      ∧ (∀ n, (advance_timestamp 960)^[n] 0 = 960 * n)
      ∧ (create_rtp_header false 0 0 305419896 = none ↔ 4294967296 ≤ 0)) :=
  ⟨by decide, by decide,
   C6_timestamp_unbounded 960 0 false 0 305419896 (by decide) (by decide)⟩

/-- Claim C7, counterexample: the code computes `samples_per_chunk` with
`int()` truncation, not Python `round`: at sampleRate = 999 and
frameDurationMs = 1 the code yields 0 while `round(999 / 1000) = 1`. -/
theorem C7_counterexample :
    samples_per_chunk 999 1 = 0
    ∧ samplesPerFrameSpec 999 1 = 1
    ∧ samples_per_chunk 999 1 ≠ samplesPerFrameSpec 999 1 := by
  decide

/-- Claim C7 (amended): `samples_per_chunk` is the truncation (floor) of
`sampleRate * frameDurationMs / 1000` — characterized by the two floor
inequalities, and agreeing with the spec's `round` whenever 1000 divides
the product — and `chunk_size` is `samples_per_chunk` times sample width
times channels; in particular 48000 Hz at 20 ms gives 960 samples and,
with 16-bit mono, 1920 bytes. -/
theorem C7_frame_size (sample_rate chunk_duration_ms sample_width channels : Nat) :
    1000 * samples_per_chunk sample_rate chunk_duration_ms
        ≤ sample_rate * chunk_duration_ms
    ∧ sample_rate * chunk_duration_ms
        < 1000 * (samples_per_chunk sample_rate chunk_duration_ms + 1)
    ∧ chunk_size sample_width channels sample_rate chunk_duration_ms
        = samples_per_chunk sample_rate chunk_duration_ms * (sample_width * channels)
    ∧ (sample_rate * chunk_duration_ms % 1000 = 0 →
        samples_per_chunk sample_rate chunk_duration_ms
          = samplesPerFrameSpec sample_rate chunk_duration_ms)
    ∧ samples_per_chunk 48000 20 = 960
    ∧ chunk_size 2 1 48000 20 = 1920 := by
  refine ⟨?_, ?_, rfl, ?_, by decide, by decide⟩
  · unfold samples_per_chunk
    omega
  · unfold samples_per_chunk
    omega
  · intro h
    unfold samplesPerFrameSpec samples_per_chunk
    simp only [h]
    norm_num

/-! ### Packetizer lemmas -/

theorem ceil_div_succ (L F : Nat) (hF : 0 < F) (hL : 0 < L) :
    (L + F - 1) / F = (L - F + F - 1) / F + 1 := by
  have h2 : L + F - 1 = (L - 1) + F := by omega
  rcases le_or_lt L F with h | h
  · have h1 : L - F = 0 := by omega
    rw [h1, h2, Nat.add_div_right _ hF, Nat.div_eq_of_lt (by omega),
      Nat.div_eq_of_lt (by omega)]
  · have h3 : L - F + F - 1 = L - 1 := by omega
    rw [h2, h3, Nat.add_div_right _ hF]

theorem framesLoop_length (F : Nat) (hF : 0 < F) :
    ∀ fuel i (data : List Nat), data.length ≤ fuel →
      (framesLoop F fuel i data).length = (data.length + F - 1) / F := by
  intro fuel
  induction fuel with
  | zero =>
    intro i data h
    have hd : data = [] := List.eq_nil_of_length_eq_zero (Nat.le_zero.mp h)
    subst hd
    simp only [framesLoop, List.length_nil]
    rw [Nat.div_eq_of_lt (by omega)]
  | succ fuel ih =>
    intro i data h
    match data with
    | [] =>
      simp only [framesLoop, List.length_nil]
      rw [Nat.div_eq_of_lt (by omega)]
    | d :: ds =>
      simp only [framesLoop, List.length_cons]
      rw [ih (i + F) ((d :: ds).drop F) (by simp [List.length_drop] at h ⊢; omega)]
      rw [List.length_drop, List.length_cons]
      exact (ceil_div_succ (ds.length + 1) F hF (by omega)).symm

theorem framesLoop_getElem (F : Nat) (hF : 0 < F) :
    ∀ fuel i (data : List Nat) k, data.length ≤ fuel → k * F < data.length →
      (framesLoop F fuel i data)[k]? =
        some (decide (i + k * F = 0), padChunk F ((data.drop (k * F)).take F)) := by
  intro fuel
  induction fuel with
  | zero =>
    intro i data k h hk
    omega
  | succ fuel ih =>
    intro i data k h hk
    match data with
    | [] => simp at hk
    | d :: ds =>
      match k with
      | 0 =>
        simp only [framesLoop, List.getElem?_cons_zero, Nat.zero_mul, Nat.add_zero,
          List.drop_zero]
      | k + 1 =>
        have hmul : (k + 1) * F = k * F + F := by rw [Nat.succ_mul]
        simp only [framesLoop, List.getElem?_cons_succ]
        rw [ih (i + F) ((d :: ds).drop F) k
          (by simp only [List.length_drop, List.length_cons] at h ⊢; omega)
          (by simp only [List.length_drop, List.length_cons] at hk ⊢; omega)]
        rw [List.drop_drop]
        have e1 : i + F + k * F = i + (k + 1) * F := by omega
        have e2 : F + k * F = (k + 1) * F := by omega
        rw [e1, e2]

theorem stream_frames_length (F : Nat) (data : List Nat) (hF : 0 < F) :
    (stream_frames F data).length = (data.length + F - 1) / F :=
  framesLoop_length F hF data.length 0 data (Nat.le_refl _)

theorem stream_frames_getElem (F : Nat) (data : List Nat) (k : Nat) (hF : 0 < F)
    (hk : k * F < data.length) :
    (stream_frames F data)[k]? =
      some (decide (k = 0), padChunk F ((data.drop (k * F)).take F)) := by
  rw [stream_frames, framesLoop_getElem F hF data.length 0 data k (Nat.le_refl _) hk]
  have hb : decide (0 + k * F = 0) = decide (k = 0) := by
    apply decide_eq_decide.mpr
    rw [Nat.zero_add]
    constructor
    · intro h
      rcases Nat.mul_eq_zero.mp h with h | h
      · exact h
      · omega
    · intro h
      rw [h, Nat.zero_mul]
  rw [hb]

theorem stream_frames_getElem_none (F : Nat) (data : List Nat) (k : Nat) (hF : 0 < F)
    (hk : data.length ≤ k * F) :
    (stream_frames F data)[k]? = none := by
  apply List.getElem?_eq_none
  rw [stream_frames_length F data hF]
  have h1 : data.length + F - 1 < (k + 1) * F := by
    have : (k + 1) * F = k * F + F := by rw [Nat.succ_mul]
    omega
  have := (Nat.div_lt_iff_lt_mul hF).mpr h1
  omega

theorem padChunk_eq_append (F : Nat) (c : List Nat) :
    padChunk F c = c ++ List.replicate (F - c.length) 0 := by
  unfold padChunk
  rcases lt_or_ge c.length F with h | h
  · rw [if_pos h]
  · rw [if_neg (Nat.not_lt.mpr h), Nat.sub_eq_zero_of_le h, List.replicate_zero,
      List.append_nil]

theorem padChunk_length (F : Nat) (c : List Nat) (h : c.length ≤ F) :
    (padChunk F c).length = F := by
  rw [padChunk_eq_append, List.length_append, List.length_replicate]
  omega

theorem stream_frames_markers (F : Nat) (data : List Nat) (hF : 0 < F)
    (hd : 0 < data.length) :
    (stream_frames F data).map Prod.fst
      = true :: List.replicate ((data.length - 1) / F) false := by
  apply List.ext_getElem?
  intro n
  rw [List.getElem?_map]
  match n with
  | 0 =>
    rw [stream_frames_getElem F data 0 hF (by rw [Nat.zero_mul]; exact hd)]
    simp
  | n + 1 =>
    rcases lt_or_ge ((n + 1) * F) data.length with h | h
    · rw [stream_frames_getElem F data (n + 1) hF h]
      have hn : n < (data.length - 1) / F :=
        (Nat.le_div_iff_mul_le hF).mpr (Nat.le_pred_of_lt h)
      rw [List.getElem?_cons_succ, List.getElem?_replicate, if_pos hn]
      simp
    · rw [stream_frames_getElem_none F data (n + 1) hF h]
      have hn : (data.length - 1) / F ≤ n := by
        by_contra hcon
        push_neg at hcon
        have h2 := (Nat.le_div_iff_mul_le hF).mp (Nat.succ_le_of_lt hcon)
        exact absurd (Nat.lt_of_le_of_lt h2 (Nat.sub_lt hd Nat.one_pos))
          (Nat.not_lt.mpr h)
      rw [List.getElem?_cons_succ, List.getElem?_replicate, if_neg (Nat.not_lt.mpr hn)]
      simp

/-- Claim C2: for every PCM buffer of length L > 0 and frame size F > 0, the
packetizer yields exactly ceil(L/F) frames, each exactly F bytes long, in
source-buffer order; when L mod F is nonzero the last frame is the remaining
L mod F source bytes followed by F - (L mod F) zero bytes, and all earlier
frames are unpadded slices of the source; in particular a 2500-byte buffer
with F = 1920 yields 2 frames, the second having its final 1340 bytes zero. -/
theorem C2_packetizer (F : Nat) (data : List Nat) (hF : 0 < F) (hL : 0 < data.length) :
    (stream_frames F data).length = (data.length + F - 1) / F
    ∧ (∀ p ∈ stream_frames F data, p.2.length = F)
    ∧ (∀ k, k * F < data.length →
        ((stream_frames F data)[k]?).map Prod.snd =
          some ((data.drop (k * F)).take F
            ++ List.replicate (F - ((data.drop (k * F)).take F).length) 0))
    ∧ (∀ k, (k + 1) * F < data.length →
        ((stream_frames F data)[k]?).map Prod.snd = some ((data.drop (k * F)).take F))
    ∧ (data.length % F ≠ 0 →
        ((stream_frames F data).getLast?).map Prod.snd =
          some (data.drop (data.length - data.length % F)
            ++ List.replicate (F - data.length % F) 0))
    ∧ (F = 1920 → data.length = 2500 →
        (stream_frames F data).length = 2
          ∧ ((stream_frames F data)[1]?).map (fun p => p.2.drop 580) =
              some (List.replicate 1340 0)) := by
  refine ⟨stream_frames_length F data hF, ?_, ?_, ?_, ?_, ?_⟩
  · intro p hp
    obtain ⟨k, hk⟩ := List.getElem?_of_mem hp
    have hklen : k < (stream_frames F data).length := by
      rcases List.getElem?_eq_some_iff.mp hk with ⟨h, _⟩
      exact h
    rw [stream_frames_length F data hF] at hklen
    have hkF : k * F < data.length := by
      have h2 : (k + 1) * F ≤ data.length + F - 1 :=
        (Nat.le_div_iff_mul_le hF).mp hklen
      have h3 : k * F + F = (k + 1) * F := (Nat.succ_mul k F).symm
      omega
    rw [stream_frames_getElem F data k hF hkF] at hk
    have hp2 : p.2 = padChunk F ((data.drop (k * F)).take F) :=
      (congrArg Prod.snd (Option.some.inj hk)).symm
    rw [hp2]
    exact padChunk_length F _ (by rw [List.length_take]; exact Nat.min_le_left _ _)
  · intro k hk
    rw [stream_frames_getElem F data k hF hk, padChunk_eq_append]
    simp
  · intro k hk1
    have h3 : k * F + F = (k + 1) * F := (Nat.succ_mul k F).symm
    have hkF : k * F < data.length := by omega
    rw [stream_frames_getElem F data k hF hkF, padChunk_eq_append]
    have hlen : ((data.drop (k * F)).take F).length = F := by
      rw [List.length_take, List.length_drop]
      omega
    rw [hlen, Nat.sub_self, List.replicate_zero, List.append_nil]
    simp
  · intro hr
    have hdm := Nat.div_add_mod data.length F
    have hrF : data.length % F < F := Nat.mod_lt _ hF
    have hc : F * (data.length / F) = data.length / F * F := Nat.mul_comm _ _
    have hceil : (data.length + F - 1) / F = data.length / F + 1 := by
      have h1 : data.length + F - 1
          = (data.length % F - 1) + (data.length / F + 1) * F := by
        have h2 : (data.length / F + 1) * F = data.length / F * F + F :=
          Nat.succ_mul _ _
        omega
      rw [h1, Nat.add_mul_div_right _ _ hF, Nat.div_eq_of_lt (by omega), Nat.zero_add]
    have hlast : (stream_frames F data).getLast? =
        (stream_frames F data)[data.length / F]? := by
      rw [List.getLast?_eq_getElem?, stream_frames_length F data hF, hceil,
        Nat.add_sub_cancel]
    have hqF : data.length / F * F < data.length := by omega
    rw [hlast, stream_frames_getElem F data _ hF hqF, padChunk_eq_append]
    have hdropt : (data.drop (data.length / F * F)).take F
        = data.drop (data.length / F * F) :=
      List.take_of_length_le (by rw [List.length_drop]; omega)
    have hqL : data.length / F * F = data.length - data.length % F := by omega
    rw [hdropt, hqL]
    have hlen : (data.drop (data.length - data.length % F)).length
        = data.length % F := by
      rw [List.length_drop]
      omega
    rw [hlen]
    simp
  · intro hF2 hL2
    subst hF2
    constructor
    · rw [stream_frames_length _ data (by norm_num), hL2]
    · rw [stream_frames_getElem 1920 data 1 (by norm_num)
        (by rw [Nat.one_mul, hL2]; norm_num)]
      have h580 : (data.drop 1920).take 1920 = data.drop 1920 :=
        List.take_of_length_le (by rw [List.length_drop, hL2]; norm_num)
      have hlen : (data.drop 1920).length = 580 := by rw [List.length_drop, hL2]
      rw [padChunk_eq_append, h580, hlen]
      norm_num
      rw [List.drop_left' hlen]

/-- Claim C8: for every non-empty PCM input exactly the first emitted frame
carries the marker flag (isFirst) and all later frames do not; for an empty
input buffer zero frames are produced and `stream_audio` sends nothing and
builds no header. -/
theorem C8_first_marker (F : Nat) (data : List Nat) (st : RtpState) (addr : Addr)
    (ms : Nat) (oks : Nat → Bool) (hF : 0 < F) (hd : 0 < data.length)
    (hrate : 1000 ≤ st.sample_rate * ms) :
    (stream_frames F data).map Prod.fst
        = true :: List.replicate ((data.length - 1) / F) false
    ∧ stream_frames F [] = []
    ∧ stream_audio st (some addr) [] ms oks
        = ⟨{ st with client_addr := some addr }, [], 0, none⟩ := by
  refine ⟨stream_frames_markers F data hF hd, rfl, ?_⟩
  have hcs : chunk_size 2 1 st.sample_rate ms ≠ 0 := by
    unfold chunk_size samples_per_chunk
    omega
  unfold stream_audio wait_for_client
  simp only []
  rw [if_neg hcs]
  rfl

/-- Claim C4: in rendezvous mode, if no inbound datagram arrives within the
60-second window, `wait_for_client` fails and the session never streams:
`stream_audio` sends zero packets and the sequence number and timestamp
keep their initial value 0. -/
theorem C4_rendezvous_timeout (port rate ms : Nat) (data : List Nat)
    (oks : Nat → Bool) :
    stream_audio (initServer port rate) none data ms oks
        = ⟨initServer port rate, [], 0, none⟩
    ∧ (initServer port rate).sequence_number = 0
    ∧ (initServer port rate).timestamp = 0 := by
  exact ⟨rfl, rfl, rfl⟩

/-- Claim C10: calling `send_rtp_packet` while no peer address is set is a
complete no-op: no datagram is sent, no error is raised, and the whole
session state (port, sample rate, sequence number, timestamp, SSRC, peer
address) is unchanged. -/
theorem C10_no_peer_noop (port rate s t c : Nat) (data : List Nat)
    (marker sendOk : Bool) :
    send_rtp_packet ⟨port, rate, s, t, c, none⟩ data marker sendOk
      = ⟨⟨port, rate, s, t, c, none⟩, [], none⟩ := rfl

/-- One successful iteration of the streaming loop: the chunk is sent and
the sequence number and timestamp advance before the next iteration. -/
theorem streamLoop_cons_ok (F inc : Nat) (oks : Nat → Bool) (fuel i count : Nat)
    (st : RtpState) (d : Nat) (ds : List Nat) (a : Addr)
    (ha : st.client_addr = some a) (hok : oks count = true)
    (hs : st.sequence_number < 65536) (ht : st.timestamp < 4294967296)
    (hc : st.ssrc < 4294967296) :
    ∃ pkt,
      streamLoop F inc oks (fuel + 1) i count st (d :: ds) =
        ⟨(streamLoop F inc oks fuel (i + F) (count + 1)
            { st with sequence_number := advance_sequence_number st.sequence_number,
                      timestamp := advance_timestamp inc st.timestamp }
            ((d :: ds).drop F)).state,
          pkt :: (streamLoop F inc oks fuel (i + F) (count + 1)
            { st with sequence_number := advance_sequence_number st.sequence_number,
                      timestamp := advance_timestamp inc st.timestamp }
            ((d :: ds).drop F)).sent,
          (streamLoop F inc oks fuel (i + F) (count + 1)
            { st with sequence_number := advance_sequence_number st.sequence_number,
                      timestamp := advance_timestamp inc st.timestamp }
            ((d :: ds).drop F)).packet_count,
          (streamLoop F inc oks fuel (i + F) (count + 1)
            { st with sequence_number := advance_sequence_number st.sequence_number,
                      timestamp := advance_timestamp inc st.timestamp }
            ((d :: ds).drop F)).error⟩ := by
  have hheader := create_rtp_header_bytes (decide (i = 0)) st.sequence_number
    st.timestamp st.ssrc hs ht hc
  refine ⟨[128, if decide (i = 0) = true then 139 else 11,
    st.sequence_number / 256, st.sequence_number % 256,
    st.timestamp / 16777216, st.timestamp / 65536 % 256,
    st.timestamp / 256 % 256, st.timestamp % 256,
    st.ssrc / 16777216, st.ssrc / 65536 % 256, st.ssrc / 256 % 256, st.ssrc % 256]
    ++ padChunk F ((d :: ds).take F), ?_⟩
  simp [streamLoop, hok, send_rtp_packet, ha, hheader]

/-- One failing iteration of the streaming loop: `sendto` raises, the loop
stops, and neither the sequence number nor the timestamp advances. -/
theorem streamLoop_cons_fail (F inc : Nat) (oks : Nat → Bool) (fuel i count : Nat)
    (st : RtpState) (d : Nat) (ds : List Nat) (a : Addr)
    (ha : st.client_addr = some a) (hok : oks count = false)
    (hs : st.sequence_number < 65536) (ht : st.timestamp < 4294967296)
    (hc : st.ssrc < 4294967296) :
    streamLoop F inc oks (fuel + 1) i count st (d :: ds)
      = ⟨st, [], count, some .sendError⟩ := by
  have hheader := create_rtp_header_bytes (decide (i = 0)) st.sequence_number
    st.timestamp st.ssrc hs ht hc
  simp [streamLoop, hok, send_rtp_packet, ha, hheader]

theorem advance_sequence_number_lt (s : Nat) : advance_sequence_number s < 65536 := by
  rw [advance_sequence_number_mod]
  omega

/-- Whole-run behaviour of the streaming loop when every `sendto` returns:
no error, one packet and one sequence/timestamp advance per frame. -/
theorem streamLoop_run_ok (F inc : Nat) (oks : Nat → Bool) (hF : 0 < F)
    (hok : ∀ n, oks n = true) :
    ∀ fuel (data : List Nat) i count (st : RtpState),
      data.length ≤ fuel →
      st.client_addr.isSome = true →
      st.sequence_number < 65536 → st.ssrc < 4294967296 →
      st.timestamp + inc * data.length < 4294967296 →
      (streamLoop F inc oks fuel i count st data).error = none
      ∧ (streamLoop F inc oks fuel i count st data).packet_count
          = count + (data.length + F - 1) / F
      ∧ (streamLoop F inc oks fuel i count st data).state.timestamp
          = st.timestamp + inc * ((data.length + F - 1) / F)
      ∧ (streamLoop F inc oks fuel i count st data).state.sequence_number
          = advance_sequence_number^[(data.length + F - 1) / F] st.sequence_number
      ∧ (streamLoop F inc oks fuel i count st data).sent.length
          = (data.length + F - 1) / F := by
  intro fuel
  induction fuel with
  | zero =>
    intro data i count st h hcl hs hc hts
    have hd : data = [] := List.eq_nil_of_length_eq_zero (Nat.le_zero.mp h)
    subst hd
    have hN : (List.length ([] : List Nat) + F - 1) / F = 0 := by
      rw [List.length_nil]
      exact Nat.div_eq_of_lt (by omega)
    rw [hN]
    simp [streamLoop]
  | succ fuel ih =>
    intro data i count st h hcl hs hc hts
    match data with
    | [] =>
      have hN : (List.length ([] : List Nat) + F - 1) / F = 0 := by
        rw [List.length_nil]
        exact Nat.div_eq_of_lt (by omega)
      rw [hN]
      simp [streamLoop]
    | d :: ds =>
      obtain ⟨a, ha⟩ := Option.isSome_iff_exists.mp hcl
      have hts0 : st.timestamp < 4294967296 := by
        have h0 : 0 ≤ inc * (d :: ds).length := Nat.zero_le _
        omega
      obtain ⟨pkt, heq⟩ := streamLoop_cons_ok F inc oks fuel i count st d ds a ha
        (hok count) hs hts0 hc
      have hlen : ((d :: ds).drop F).length ≤ fuel := by
        rw [List.length_drop]
        simp only [List.length_cons] at h ⊢
        omega
      have hts2 : advance_timestamp inc st.timestamp
          + inc * ((d :: ds).drop F).length < 4294967296 := by
        unfold advance_timestamp
        rw [List.length_drop]
        have hstep : (d :: ds).length - F + 1 ≤ (d :: ds).length := by
          simp only [List.length_cons]
          omega
        have hmono : inc * ((d :: ds).length - F) + inc
            ≤ inc * (d :: ds).length := by
          calc inc * ((d :: ds).length - F) + inc
              = inc * ((d :: ds).length - F + 1) := by rw [Nat.mul_succ]
            _ ≤ inc * (d :: ds).length := Nat.mul_le_mul_left inc hstep
        omega
      have hrec := ih ((d :: ds).drop F) (i + F) (count + 1)
        { st with sequence_number := advance_sequence_number st.sequence_number,
                  timestamp := advance_timestamp inc st.timestamp }
        hlen hcl (advance_sequence_number_lt st.sequence_number) hc hts2
      rw [heq]
      dsimp only at hrec ⊢
      obtain ⟨e1, e2, e3, e4, e5⟩ := hrec
      have hNsucc : ((d :: ds).length + F - 1) / F
          = (((d :: ds).drop F).length + F - 1) / F + 1 := by
        rw [List.length_drop]
        exact ceil_div_succ (d :: ds).length F hF (by simp)
      rw [hNsucc]
      refine ⟨e1, ?_, ?_, ?_, ?_⟩
      · rw [e2]
        omega
      · rw [e3]
        unfold advance_timestamp
        rw [Nat.mul_succ]
        omega
      · rw [Function.iterate_succ_apply]
        exact e4
      · rw [List.length_cons, e5]

/-- Claim C5, counterexample: the state is not advanced unconditionally.
On a concrete session with a connected peer, a `sendto` that raises leaves
`send_rtp_packet` with the sequence number still 5 (not (5+1) mod 65536),
and the streaming loop with the timestamp still 7 (not 7 + 960). -/
theorem C5_counterexample :
    (send_rtp_packet ⟨5004, 48000, 5, 7, 0x12345678, some (1, 2)⟩ [1, 2, 3]
        false false).error = some .sendError
    ∧ (send_rtp_packet ⟨5004, 48000, 5, 7, 0x12345678, some (1, 2)⟩ [1, 2, 3]
        false false).state.sequence_number = 5
    ∧ (send_rtp_packet ⟨5004, 48000, 5, 7, 0x12345678, some (1, 2)⟩ [1, 2, 3]
        false false).state.sequence_number ≠ (5 + 1) % 65536
    ∧ (streamLoop 2 960 (fun _ => false) 3 0 0
        ⟨5004, 48000, 5, 7, 0x12345678, some (1, 2)⟩ [1, 2, 3]).state.timestamp = 7
    ∧ (streamLoop 2 960 (fun _ => false) 3 0 0
        ⟨5004, 48000, 5, 7, 0x12345678, some (1, 2)⟩ [1, 2, 3]).state.timestamp
        ≠ 7 + 960 := by
  refine ⟨rfl, rfl, by decide, rfl, by decide⟩

/-- Claim C5 (amended): the sequence number and timestamp are advanced
exactly when the send returns without raising: a successful
`send_rtp_packet` advances the sequence number by +1 mod 65536, a raising
one leaves the state unchanged and propagates the error, ending the
streaming loop at once with no timestamp advance; when every send returns,
the loop advances the sequence number once and the timestamp by
`timestamp_increment` once per frame. -/
theorem C5_conditional_advance (st : RtpState) (chunk : List Nat) (marker : Bool)
    (F inc fuel i count d : Nat) (ds : List Nat) (oks : Nat → Bool) (a : Addr)
    (ha : st.client_addr = some a)
    (hs : st.sequence_number < 65536) (hc : st.ssrc < 4294967296)
    (hF : 0 < F) (hok : ∀ n, oks n = true)
    (hts : st.timestamp + inc * (d :: ds).length < 4294967296) :
    (send_rtp_packet st chunk marker true).state.sequence_number
        = (st.sequence_number + 1) % 65536
    ∧ (send_rtp_packet st chunk marker true).error = none
    ∧ (send_rtp_packet st chunk marker false).state = st
    ∧ (send_rtp_packet st chunk marker false).error = some .sendError
    ∧ streamLoop F inc (fun _ => false) (fuel + 1) i count st (d :: ds)
        = ⟨st, [], count, some .sendError⟩
    ∧ (streamLoop F inc oks (d :: ds).length i count st (d :: ds)).state.sequence_number
        = advance_sequence_number^[((d :: ds).length + F - 1) / F] st.sequence_number
    ∧ (streamLoop F inc oks (d :: ds).length i count st (d :: ds)).state.timestamp
        = st.timestamp + inc * (((d :: ds).length + F - 1) / F)
    ∧ (streamLoop F inc oks (d :: ds).length i count st (d :: ds)).error = none := by
  have hts0 : st.timestamp < 4294967296 := by
    have h0 : 0 ≤ inc * (d :: ds).length := Nat.zero_le _
    omega
  have hheader := create_rtp_header_bytes marker st.sequence_number st.timestamp
    st.ssrc hs hts0 hc
  have hrun := streamLoop_run_ok F inc oks hF hok (d :: ds).length (d :: ds) i count st
    (Nat.le_refl _) (by rw [ha]; rfl) hs hc hts
  refine ⟨?_, ?_, ?_, ?_, ?_, hrun.2.2.2.1, hrun.2.2.1, hrun.1⟩
  · simp [send_rtp_packet, ha, hheader, advance_sequence_number_mod]
  · simp [send_rtp_packet, ha, hheader]
  · simp [send_rtp_packet, ha, hheader]
  · simp [send_rtp_packet, ha, hheader]
  · exact streamLoop_cons_fail F inc (fun _ => false) fuel i count st d ds a ha rfl
      hs hts0 hc

theorem C5_witness :
    (0:Nat) < 2
    ∧ (send_rtp_packet ⟨5004, 48000, 5, 7, 0x12345678, some (1, 2)⟩ [1, 2]
        false true).state.sequence_number = (5 + 1) % 65536 :=
  ⟨by decide,
   (C5_conditional_advance ⟨5004, 48000, 5, 7, 0x12345678, some (1, 2)⟩ [1, 2]
      false 2 960 0 0 0 9 [8, 7] (fun _ => true) (1, 2) rfl (by decide) (by decide)
      (by decide) (fun _ => rfl) (by decide)).1⟩

theorem C2_witness :
    (stream_frames 2 [5, 6, 7]).length = ([5, 6, 7].length + 2 - 1) / 2 :=
  (C2_packetizer 2 [5, 6, 7] (by decide) (by decide)).1

theorem C8_witness :
    (stream_frames 2 [5, 6, 7]).map Prod.fst
      = true :: List.replicate (([5, 6, 7].length - 1) / 2) false :=
  (C8_first_marker 2 [5, 6, 7] (initServer 5004 48000) (1, 2) 20 (fun _ => true)
    (by decide) (by decide) (by decide)).1

end StreamAudio
